import Mathlib

/-!
Shallow embedding of `src/enaplo.py`, a minimal desktop calendar
application, together with proofs about its event store and dialog flows.

Modelling conventions:
* A Python `datetime.datetime` is modelled by `DateTime` (year, month, day,
  hour, minute, second as `Nat`; microseconds are always zero for values the
  application creates and are not modelled).  `datetime.isoformat` /
  `datetime.fromisoformat` are modelled character by character.
* Python objects have identity; class `Event` defines no `__eq__`, so `==`
  on events is object identity.  The `id` field of `Event` models that
  identity; `list.remove` is modelled by `listRemove`, which compares ids.
* The store (`CalendarModel`) is a list of events plus the persisted file.
  The JSON file is modelled structurally as a list of `RawRecord`s
  (`none` = the file does not exist); `json.dump`/`json.load` of such a
  list round-trips, so the textual JSON layer is not re-modelled.
* Fallible Python code (raising `ValueError`, `KeyError`, `IndexError`)
  is modelled with `Option`: `none` means the exception propagates and the
  mutation did not happen.
-/

namespace Enaplo

/-- Model of a Python `datetime.datetime` value (microsecond 0). -/
structure DateTime where
  year : Nat
  month : Nat
  day : Nat
  hour : Nat
  minute : Nat
  second : Nat
deriving DecidableEq, Repr

/-- Gregorian leap-year test, as `calendar.isleap` / `datetime` use it. -/
def isLeap (y : Nat) : Bool :=
  (y % 4 == 0 && y % 100 != 0) || y % 400 == 0

/-- Number of days in a month, as `datetime` validates the `day` field. -/
def daysInMonth (y m : Nat) : Nat :=
  if m = 2 then (if isLeap y then 29 else 28)
  else if m = 4 ∨ m = 6 ∨ m = 9 ∨ m = 11 then 30
  else 31

/-- The invariant Python's `datetime` constructor enforces on its fields. -/
def DateTime.Valid (d : DateTime) : Prop :=
  1 ≤ d.year ∧ d.year ≤ 9999 ∧ 1 ≤ d.month ∧ d.month ≤ 12 ∧
  1 ≤ d.day ∧ d.day ≤ daysInMonth d.year d.month ∧
  d.hour ≤ 23 ∧ d.minute ≤ 59 ∧ d.second ≤ 59

instance (d : DateTime) : Decidable d.Valid := by
  unfold DateTime.Valid
  infer_instance

/-- Python `a.date() == b.date()`: equality of the date components. -/
def DateTime.dateEq (a b : DateTime) : Bool :=
  a.year == b.year && a.month == b.month && a.day == b.day

/-- Python's `datetime` order: lexicographic on the fields.  Used by
`sorted(..., key=lambda e: e.dt)`. -/
def DateTime.Le (a b : DateTime) : Prop :=
  a.year < b.year ∨ (a.year = b.year ∧ (a.month < b.month ∨ (a.month = b.month ∧
    (a.day < b.day ∨ (a.day = b.day ∧ (a.hour < b.hour ∨ (a.hour = b.hour ∧
    (a.minute < b.minute ∨ (a.minute = b.minute ∧ a.second ≤ b.second)))))))))

instance : DecidableRel DateTime.Le := fun a b => by
  unfold DateTime.Le
  infer_instance

/-- Order on the time-of-day component only; "ascending by time-of-day"
is ascending in this order. -/
def DateTime.TimeLe (a b : DateTime) : Prop :=
  a.hour < b.hour ∨ (a.hour = b.hour ∧
    (a.minute < b.minute ∨ (a.minute = b.minute ∧ a.second ≤ b.second)))

/-- The decimal digit character for `n < 10`. -/
def digitChar (n : Nat) : Char := Char.ofNat (48 + n)

/-- Two-digit zero-padded decimal rendering (for `n < 100`). -/
def pad2 (n : Nat) : List Char := [digitChar (n / 10), digitChar (n % 10)]

/-- Four-digit zero-padded decimal rendering (for `n < 10000`). -/
def pad4 (n : Nat) : List Char :=
  [digitChar (n / 1000), digitChar (n / 100 % 10), digitChar (n / 10 % 10), digitChar (n % 10)]

/-- Python `datetime.isoformat()` for a microsecond-0 value:
`YYYY-MM-DDTHH:MM:SS`. -/
def isoformat (d : DateTime) : List Char :=
  pad4 d.year ++ '-' :: pad2 d.month ++ '-' :: pad2 d.day ++
    'T' :: pad2 d.hour ++ ':' :: pad2 d.minute ++ ':' :: pad2 d.second

/-- The numeric value of an ASCII digit character, if it is one. -/
def charDigit? (c : Char) : Option Nat :=
  if 48 ≤ c.toNat ∧ c.toNat ≤ 57 then some (c.toNat - 48) else none

/-- Value of a two-digit field. -/
def digits2 (a b : Char) : Option Nat :=
  match charDigit? a, charDigit? b with
  | some x, some y => some (10 * x + y)
  | _, _ => none

/-- Value of a four-digit field. -/
def digits4 (a b c d : Char) : Option Nat :=
  match charDigit? a, charDigit? b, charDigit? c, charDigit? d with
  | some w, some x, some y, some z => some (1000 * w + 100 * x + 10 * y + z)
  | _, _, _, _ => none

/-- Build a `DateTime`, validating the fields as Python's constructor does. -/
def mkValid (y mo d h mi s : Nat) : Option DateTime :=
  if DateTime.Valid ⟨y, mo, d, h, mi, s⟩ then some ⟨y, mo, d, h, mi, s⟩ else none

/-- Python `datetime.fromisoformat` on the formats `datetime.isoformat`
emits for microsecond-0 values: `YYYY-MM-DD`, `YYYY-MM-DD*HH:MM` and
`YYYY-MM-DD*HH:MM:SS` (the separator may be any character). -/
def fromisoformat : List Char → Option DateTime
  | [y1, y2, y3, y4, '-', m1, m2, '-', d1, d2] =>
    (match digits4 y1 y2 y3 y4, digits2 m1 m2, digits2 d1 d2 with
     | some y, some mo, some d => mkValid y mo d 0 0 0
     | _, _, _ => none)
  | [y1, y2, y3, y4, '-', m1, m2, '-', d1, d2, _, h1, h2, ':', n1, n2] =>
    (match digits4 y1 y2 y3 y4, digits2 m1 m2, digits2 d1 d2,
        digits2 h1 h2, digits2 n1 n2 with
     | some y, some mo, some d, some h, some n => mkValid y mo d h n 0
     | _, _, _, _, _ => none)
  | [y1, y2, y3, y4, '-', m1, m2, '-', d1, d2, _, h1, h2, ':', n1, n2, ':', s1, s2] =>
    (match digits4 y1 y2 y3 y4, digits2 m1 m2, digits2 d1 d2,
        digits2 h1 h2, digits2 n1 n2, digits2 s1 s2 with
     | some y, some mo, some d, some h, some n, some s => mkValid y mo d h n s
     | _, _, _, _, _, _ => none)
  | _ => none

/-- A calendar event (`Event` in `src/enaplo.py`).  The `id` field models
Python object identity: `Event` defines no `__eq__`, so `==` on events
compares identity, never the title/dt/description fields. -/
structure Event where
  id : Nat
  title : String
  dt : DateTime
  description : String
deriving DecidableEq, Repr

/-- The observable value of an event: its three declared fields. -/
def eventVal (e : Event) : String × DateTime × String :=
  (e.title, e.dt, e.description)

/-- One JSON object of the persisted file.  `none` in a field means the key
is absent from the object. -/
structure RawRecord where
  title : Option String
  dt : Option (List Char)
  description : Option String
deriving DecidableEq, Repr

/-- `Event.to_dict`: all three keys are always written. -/
def to_dict (e : Event) : RawRecord :=
  { title := some e.title, dt := some (isoformat e.dt), description := some e.description }

/-- `Event.from_dict`: `title` and `dt` are required (a missing key raises
`KeyError`, an unparseable `dt` raises `ValueError`; both are `none` here),
`description` defaults to `""` via `data.get`.  The returned event is a
freshly allocated object, hence the fresh identity argument. -/
def from_dict (freshId : Nat) (data : RawRecord) : Option Event :=
  match data.title, data.dt with
  | some t, some s => (fromisoformat s).map (fun d => ⟨freshId, t, d, data.description.getD ""⟩)
  | _, _ => none

/-- Whether `Event.from_dict` accepts a record (independent of the identity). -/
def recordOk (r : RawRecord) : Bool :=
  r.title.isSome &&
    (match r.dt with
     | some s => (fromisoformat s).isSome
     | none => false)

/-- The state of `CalendarModel`: the in-memory list plus the persisted file
(`none` = `events.json` does not exist). -/
structure Store where
  events : List Event
  file : Option (List RawRecord)
deriving DecidableEq, Repr

/-- `CalendarModel.save`: rewrite the whole file from the in-memory list. -/
def save (s : Store) : Store :=
  { s with file := some (s.events.map to_dict) }

/-- `CalendarModel.add_event`: append, then save. -/
def add_event (s : Store) (e : Event) : Store :=
  save { s with events := s.events ++ [e] }

/-- Python `list.remove(e)` on a list of events: drop the first element
`== e`, i.e. the first element with the identity of `e`; `none` models the
`ValueError` raised when no element matches. -/
def listRemove (l : List Event) (e : Event) : Option (List Event) :=
  match l with
  | [] => none
  | x :: xs => if x.id = e.id then some xs else (listRemove xs e).map (fun t => x :: t)

/-- `CalendarModel.delete_event`: `list.remove`, then save.  `none` means
the `ValueError` propagated and the store was not modified or saved. -/
def delete_event (s : Store) (e : Event) : Option Store :=
  (listRemove s.events e).map (fun l => save { s with events := l })

/-- The sort relation of `events_on_day`: compare the `dt` fields. -/
def eventLe (a b : Event) : Prop := DateTime.Le a.dt b.dt

instance : DecidableRel eventLe := fun a b => by
  unfold eventLe
  infer_instance

instance : IsTotal Event eventLe :=
  ⟨fun a b => by unfold eventLe DateTime.Le; omega⟩

instance : IsTrans Event eventLe :=
  ⟨fun a b c hab hbc => by unfold eventLe DateTime.Le at hab hbc ⊢; omega⟩

/-- `CalendarModel.events_on_day`: filter by date component, sort by `dt`
(Python's `sorted` is stable; `List.insertionSort` has the same stability). -/
def events_on_day (events : List Event) (d : DateTime) : List Event :=
  List.insertionSort eventLe (events.filter (fun e => e.dt.dateEq d))

/-- Parsing of the whole persisted list, as the comprehension in
`CalendarModel.load` does it: all records or nothing, left to right, each
loaded event being a fresh object (ids numbered from `i`). -/
def loadRecords : Nat → List RawRecord → Option (List Event)
  | _, [] => some []
  | i, r :: rs =>
    match from_dict i r, loadRecords (i + 1) rs with
    | some e, some es => some (e :: es)
    | _, _ => none

/-- `CalendarModel.__init__` + `load` at startup: missing file means an
empty store; a present file is parsed record by record, and `none` models a
propagating exception (malformed content), in which case no store exists. -/
def modelInit (file : Option (List RawRecord)) : Option Store :=
  match file with
  | none => some { events := [], file := none }
  | some data => (loadRecords 0 data).map (fun es => { events := es, file := some data })

/-- Python `str.split(sep)` for a single-character separator. -/
def splitCh (c : Char) : List Char → List (List Char)
  | [] => [[]]
  | x :: xs =>
    if x = c then [] :: splitCh c xs
    else
      match splitCh c xs with
      | [] => [[x]]
      | p :: ps => (x :: p) :: ps

/-- Strip leading and trailing spaces, as Python `int(str)` tolerates. -/
def stripSpaces (cs : List Char) : List Char :=
  ((cs.dropWhile (fun c => c = ' ')).reverse.dropWhile (fun c => c = ' ')).reverse

/-- Value of a nonempty all-digit string. -/
def digitsVal (cs : List Char) : Option Nat :=
  match cs with
  | [] => none
  | _ =>
    cs.foldl
      (fun acc c =>
        match acc, charDigit? c with
        | some a, some d => some (10 * a + d)
        | _, _ => none)
      (some 0)

/-- Python `int(str)`: optional surrounding whitespace, optional sign,
at least one decimal digit; `none` models the `ValueError`. -/
def pyInt (cs : List Char) : Option Int :=
  match stripSpaces cs with
  | '+' :: rest => (digitsVal rest).map (fun n => (n : Int))
  | '-' :: rest => (digitsVal rest).map (fun n => -(n : Int))
  | t => (digitsVal t).map (fun n => (n : Int))

/-- Python `day.replace(hour=h, minute=m)`: validates the two replaced
fields (`ValueError` when out of range) and keeps the others. -/
def replaceHM (d : DateTime) (h m : Int) : Option DateTime :=
  if 0 ≤ h ∧ h ≤ 23 ∧ 0 ≤ m ∧ m ≤ 59 then
    some { d with hour := h.toNat, minute := m.toNat }
  else none

/-- `hour, minute = map(int, ts.split(":"))`: exactly two parts, each a
Python integer literal; any failure raises `ValueError`. -/
def parseClock (ts : List Char) : Option (Int × Int) :=
  match splitCh ':' ts with
  | [a, b] =>
    (match pyInt a, pyInt b with
     | some h, some m => some (h, m)
     | _, _ => none)
  | _ => none

/-- `datetime.strptime(date_string, "%Y-%m-%d")`: midnight of the
selected day. -/
def strpDate (y mo d : Nat) : DateTime := ⟨y, mo, d, 0, 0, 0⟩

/-- The whole `try` body of `_add_event_dialog`: parse the clock string and
build the event's datetime; `none` models the caught `ValueError`. -/
def dialogTime (y mo d : Nat) (ts : List Char) : Option DateTime :=
  (parseClock ts).bind (fun p => replaceHM (strpDate y mo d) p.1 p.2)

/-- Result of `_add_event_dialog` before it touches the model. -/
inductive AddOutcome
  | silentAbort
  | errorAbort
  | added (e : Event)
deriving DecidableEq, Repr

/-- Python `time_str or "00:00"`: a cancelled prompt (`None`) or an empty
answer falls back to `"00:00"`. -/
def orDefaultTime (timeStr : Option (List Char)) : List Char :=
  match timeStr with
  | none => ['0', '0', ':', '0', '0']
  | some s => if s = [] then ['0', '0', ':', '0', '0'] else s

/-- `CalendarApp._add_event_dialog` up to the model call: `None` or `""`
from the title prompt aborts silently; a `ValueError` while parsing the
time shows an error box and aborts; otherwise the event is built from the
selected day, the parsed time and the (defaulted) description. -/
def addDialogOutcome (freshId y mo d : Nat) (title : Option String)
    (timeStr : Option (List Char)) (desc : Option String) : AddOutcome :=
  match title with
  | none => AddOutcome.silentAbort
  | some t =>
    if t = "" then AddOutcome.silentAbort
    else
      match dialogTime y mo d (orDefaultTime timeStr) with
      | none => AddOutcome.errorAbort
      | some dt => AddOutcome.added ⟨freshId, t, dt, desc.getD ""⟩

/-- `CalendarApp._add_event_dialog` including its effect on the model. -/
def addDialogRun (s : Store) (freshId y mo d : Nat) (title : Option String)
    (timeStr : Option (List Char)) (desc : Option String) : Store × AddOutcome :=
  match addDialogOutcome freshId y mo d title timeStr desc with
  | AddOutcome.added e => (add_event s e, AddOutcome.added e)
  | o => (s, o)

/-- The events a reload of a saved store produces: the same field values,
with fresh object identities numbered from `i`. -/
def reId : Nat → List Event → List Event
  | _, [] => []
  | i, e :: es => { e with id := i } :: reId (i + 1) es

/-- Result of `CalendarApp._delete_selected_event`. -/
inductive DeleteOutcome
  | ignored
  | raised
  | cancelled
  | deleted (e : Event)
deriving DecidableEq, Repr

/-- `CalendarApp._delete_selected_event`: an empty selection returns at
once (no confirmation box); otherwise the row index is resolved against the
day's query result (`raised` models an uncaught `IndexError`/`ValueError`),
the confirmation box is shown, and only a yes answer deletes. -/
def deleteSelectedRun (s : Store) (y mo d : Nat) (sel : Option Nat)
    (confirm : Bool) : Store × DeleteOutcome :=
  match sel with
  | none => (s, DeleteOutcome.ignored)
  | some idx =>
    match (events_on_day s.events (strpDate y mo d))[idx]? with
    | none => (s, DeleteOutcome.raised)
    | some e =>
      if confirm then
        match delete_event s e with
        | some t => (t, DeleteOutcome.deleted e)
        | none => (s, DeleteOutcome.raised)
      else (s, DeleteOutcome.cancelled)

end Enaplo


namespace Enaplo

/-! ## Helper lemmas -/

theorem daysInMonth_le (y m : Nat) : daysInMonth y m ≤ 31 := by
  unfold daysInMonth
  split_ifs <;> omega

theorem charDigit_digitChar (k : Nat) (h : k < 10) : charDigit? (digitChar k) = some k := by
  interval_cases k <;> decide

theorem digits2_pad (n : Nat) (h : n < 100) :
    digits2 (digitChar (n / 10)) (digitChar (n % 10)) = some n := by
  simp only [digits2, charDigit_digitChar _ (by omega : n / 10 < 10),
    charDigit_digitChar _ (by omega : n % 10 < 10)]
  exact congrArg some (by omega)

theorem digits4_pad (n : Nat) (h : n < 10000) :
    digits4 (digitChar (n / 1000)) (digitChar (n / 100 % 10)) (digitChar (n / 10 % 10))
      (digitChar (n % 10)) = some n := by
  simp only [digits4, charDigit_digitChar _ (by omega : n / 1000 < 10),
    charDigit_digitChar _ (by omega : n / 100 % 10 < 10),
    charDigit_digitChar _ (by omega : n / 10 % 10 < 10),
    charDigit_digitChar _ (by omega : n % 10 < 10)]
  exact congrArg some (by omega)

theorem fromiso_iso (d : DateTime) (h : d.Valid) : fromisoformat (isoformat d) = some d := by
  have hv := h
  obtain ⟨h1, h2, h3, h4, h5, h6, h7, h8, h9⟩ := h
  have hday : d.day < 100 := by have := daysInMonth_le d.year d.month; omega
  show fromisoformat (pad4 d.year ++ '-' :: pad2 d.month ++ '-' :: pad2 d.day ++
    'T' :: pad2 d.hour ++ ':' :: pad2 d.minute ++ ':' :: pad2 d.second) = some d
  simp only [pad4, pad2, List.cons_append, List.nil_append]
  simp only [fromisoformat]
  rw [digits4_pad d.year (by omega), digits2_pad d.month (by omega), digits2_pad d.day hday,
    digits2_pad d.hour (by omega), digits2_pad d.minute (by omega),
    digits2_pad d.second (by omega)]
  show mkValid d.year d.month d.day d.hour d.minute d.second = some d
  simp only [mkValid]
  rw [if_pos (show DateTime.Valid ⟨d.year, d.month, d.day, d.hour, d.minute, d.second⟩ from hv)]

theorem mem_events_on_day {events : List Event} {d : DateTime} {e : Event}
    (h : e ∈ events_on_day events d) : e.dt.dateEq d = true := by
  unfold events_on_day at h
  rw [List.mem_insertionSort] at h
  exact (List.mem_filter.mp h).2

theorem pairwise_imp_of_mem {α : Type} {R S : α → α → Prop} :
    ∀ (l : List α), (∀ a b, a ∈ l → b ∈ l → R a b → S a b) → l.Pairwise R → l.Pairwise S
  | [], _, _ => List.Pairwise.nil
  | x :: xs, H, hp => by
    rcases List.pairwise_cons.mp hp with ⟨hx, hxs⟩
    refine List.pairwise_cons.mpr ⟨fun b hb =>
      H x b (List.mem_cons_self x xs) (List.mem_cons_of_mem x hb) (hx b hb), ?_⟩
    exact pairwise_imp_of_mem xs
      (fun a b ha hb => H a b (List.mem_cons_of_mem x ha) (List.mem_cons_of_mem x hb)) hxs

theorem le_time {d : DateTime} {a b : Event} (ha : a.dt.dateEq d = true)
    (hb : b.dt.dateEq d = true) (hab : eventLe a b) : DateTime.TimeLe a.dt b.dt := by
  unfold DateTime.dateEq at ha hb
  simp only [Bool.and_eq_true, beq_iff_eq] at ha hb
  unfold eventLe DateTime.Le at hab
  unfold DateTime.TimeLe
  omega

/-! ## C1 -/

/-- C1: `events_on_day` returns exactly the events whose date component
equals the given date (a permutation of the filter by date, every returned
event passing the date test), sorted ascending by time-of-day; in
particular two events on the same day at 09:00 and 08:00 come back as
[08:00, 09:00] in either insertion order. -/
theorem C1_events_on_day_spec (events : List Event) (d : DateTime) :
    List.Perm (events_on_day events d) (events.filter (fun e => e.dt.dateEq d)) ∧
    List.Sorted (fun a b : Event => DateTime.TimeLe a.dt b.dt) (events_on_day events d) ∧
    (events_on_day events d).all (fun e => e.dt.dateEq d) = true ∧
    (events_on_day [⟨1, "b", ⟨2024, 5, 1, 9, 0, 0⟩, ""⟩, ⟨0, "a", ⟨2024, 5, 1, 8, 0, 0⟩, ""⟩]
        ⟨2024, 5, 1, 0, 0, 0⟩ =
      [⟨0, "a", ⟨2024, 5, 1, 8, 0, 0⟩, ""⟩, ⟨1, "b", ⟨2024, 5, 1, 9, 0, 0⟩, ""⟩] ∧
      events_on_day [⟨0, "a", ⟨2024, 5, 1, 8, 0, 0⟩, ""⟩, ⟨1, "b", ⟨2024, 5, 1, 9, 0, 0⟩, ""⟩]
        ⟨2024, 5, 1, 0, 0, 0⟩ =
      [⟨0, "a", ⟨2024, 5, 1, 8, 0, 0⟩, ""⟩, ⟨1, "b", ⟨2024, 5, 1, 9, 0, 0⟩, ""⟩]) := by
  refine ⟨List.perm_insertionSort eventLe _, ?_, ?_, by decide, by decide⟩
  · have hs := List.sorted_insertionSort eventLe (events.filter (fun e => e.dt.dateEq d))
    exact pairwise_imp_of_mem _
      (fun a b ha hb hr => le_time (mem_events_on_day ha) (mem_events_on_day hb) hr) hs
  · rw [List.all_eq_true]
    exact fun e he => mem_events_on_day he

/-! ## C10 -/

/-- C10: a persisted record with a `title` and a parseable `dt` but no
`description` key loads successfully, with `""` as the description and the
title and parsed datetime taken as-is. -/
theorem C10_from_dict_missing_description (i : Nat) (t : String) (cs : List Char)
    (dt : DateTime) (h : fromisoformat cs = some dt) :
    from_dict i ⟨some t, some cs, none⟩ = some ⟨i, t, dt, ""⟩ := by
  simp only [from_dict, h]
  rfl

/-- C10 witness: a concrete record without a `description` key. -/
theorem C10_witness :
    from_dict 0 ⟨some "X", some ("2024-05-01T14:30:00".toList), none⟩ =
      some ⟨0, "X", ⟨2024, 5, 1, 14, 30, 0⟩, ""⟩ :=
  C10_from_dict_missing_description 0 "X" _ _ (by decide)

end Enaplo

namespace Enaplo

/-! ## C2 -/

theorem from_dict_to_dict (i : Nat) (e : Event) (h : e.dt.Valid) :
    from_dict i (to_dict e) = some { e with id := i } := by
  simp only [from_dict, to_dict]
  rw [fromiso_iso e.dt h]
  rfl

theorem loadRecords_map_to_dict :
    ∀ (i : Nat) (es : List Event), (∀ e ∈ es, e.dt.Valid) →
      loadRecords i (es.map to_dict) = some (reId i es)
  | _, [], _ => rfl
  | i, e :: es, h => by
    simp only [List.map_cons, loadRecords]
    rw [from_dict_to_dict i e (h e (List.mem_cons_self e es)),
      loadRecords_map_to_dict (i + 1) es (fun x hx => h x (List.mem_cons_of_mem e hx))]
    rfl

theorem reId_val : ∀ (i : Nat) (es : List Event), (reId i es).map eventVal = es.map eventVal
  | _, [] => rfl
  | i, e :: es => by
    simp only [reId, List.map_cons, reId_val (i + 1) es]
    rfl

/-- C2: saving the store and loading the saved file back yields a
collection with the same titles, datetimes and descriptions in the same
order (the persisted round trip is the identity on the observable event
values; only the object identities are fresh). -/
theorem C2_save_load_roundtrip (s : Store) (h : ∀ e ∈ s.events, e.dt.Valid) :
    (modelInit (save s).file).map (fun st => st.events.map eventVal) =
      some (s.events.map eventVal) := by
  simp only [save, modelInit]
  rw [loadRecords_map_to_dict 0 s.events h]
  show some ((reId 0 s.events).map eventVal) = some (s.events.map eventVal)
  rw [reId_val]

/-- C2 witness: a concrete two-event store round-trips. -/
theorem C2_witness :
    (modelInit (save ⟨[⟨7, "t", ⟨2024, 5, 1, 14, 30, 0⟩, "x"⟩,
        ⟨3, "u", ⟨2024, 2, 29, 0, 0, 59⟩, ""⟩], none⟩).file).map
        (fun st => st.events.map eventVal) =
      some [("t", ⟨2024, 5, 1, 14, 30, 0⟩, "x"), ("u", ⟨2024, 2, 29, 0, 0, 59⟩, "")] :=
  C2_save_load_roundtrip _ (by decide)

/-! ## C5 -/

theorem from_dict_none_of_bad (i : Nat) (r : RawRecord) (h : recordOk r = false) :
    from_dict i r = none := by
  obtain ⟨ot, od, odesc⟩ := r
  cases ot with
  | none => rfl
  | some t =>
    cases od with
    | none => rfl
    | some cs =>
      cases hf : fromisoformat cs with
      | none => simp [from_dict, hf]
      | some d =>
        exfalso
        rw [recordOk] at h
        simp [hf] at h

theorem loadRecords_none_of_bad :
    ∀ (i : Nat) (data : List RawRecord) (r : RawRecord),
      r ∈ data → recordOk r = false → loadRecords i data = none
  | i, q :: qs, r, hmem, hbad => by
    rcases List.mem_cons.mp hmem with heq | htail
    · subst heq
      simp only [loadRecords, from_dict_none_of_bad i r hbad]
    · simp only [loadRecords, loadRecords_none_of_bad (i + 1) qs r htail hbad]
      cases from_dict i q <;> rfl

/-- C5: at startup, a missing persisted file yields an empty store with no
error, while a present file containing any record `from_dict` rejects
(missing `title`/`dt` or unparseable `dt`) makes the whole load fail:
the error propagates and no partially loaded store exists. -/
theorem C5_load_startup :
    modelInit none = some ⟨[], none⟩ ∧
    ∀ (data : List RawRecord) (r : RawRecord), r ∈ data → recordOk r = false →
      modelInit (some data) = none := by
  refine ⟨rfl, fun data r hmem hbad => ?_⟩
  simp only [modelInit]
  rw [loadRecords_none_of_bad 0 data r hmem hbad]
  rfl

/-- C5 witness: the empty-object record is rejected and aborts the load. -/
theorem C5_witness :
    modelInit none = some ⟨[], none⟩ ∧
    modelInit (some [⟨some "A", some ("2024-05-01T14:30:00".toList), none⟩,
      ⟨none, none, none⟩]) = none :=
  ⟨C5_load_startup.1, C5_load_startup.2 _ ⟨none, none, none⟩ (by decide) (by decide)⟩

end Enaplo

namespace Enaplo

/-! ## C4 -/

theorem listRemove_none_iff : ∀ (l : List Event) (e : Event),
    listRemove l e = none ↔ e.id ∉ l.map (fun x => x.id)
  | [], e => by simp [listRemove]
  | x :: xs, e => by
    simp only [listRemove, List.map_cons, List.mem_cons]
    by_cases hx : x.id = e.id
    · simp [hx]
    · rw [if_neg hx, Option.map_eq_none', listRemove_none_iff xs e]
      simp [Ne.symm hx]

theorem listRemove_some_decomp : ∀ (l : List Event) (e : Event) (t : List Event),
    listRemove l e = some t →
    ∃ pre x post, l = pre ++ x :: post ∧ x.id = e.id ∧
      (∀ y ∈ pre, y.id ≠ e.id) ∧ t = pre ++ post
  | [], e, t, h => by simp [listRemove] at h
  | x :: xs, e, t, h => by
    by_cases hx : x.id = e.id
    · simp only [listRemove, if_pos hx, Option.some.injEq] at h
      exact ⟨[], x, xs, by simp, hx, by simp, by simp [h.symm]⟩
    · simp only [listRemove, if_neg hx] at h
      cases hrec : listRemove xs e with
      | none => rw [hrec] at h; simp at h
      | some u =>
        rw [hrec] at h
        simp only [Option.map_some', Option.some.injEq] at h
        obtain ⟨pre, w, post, hl, hid, hpre, hu⟩ := listRemove_some_decomp xs e u hrec
        refine ⟨x :: pre, w, post, by simp [hl], hid, ?_, ?_⟩
        · intro y hy
          rcases List.mem_cons.mp hy with rfl | hy'
          · exact hx
          · exact hpre y hy'
        · rw [← h, hu]
          rfl

/-- C4 (amended): `delete_event` removes by Python object identity, not by
field value: it fails (raises, leaving the store unmodified and unsaved)
exactly when no stored event has the identity of the argument, and on
success it removes the first stored event with that identity and persists
the remainder. -/
theorem C4_delete_event_identity (s : Store) (e : Event) :
    (delete_event s e = none ↔ e.id ∉ s.events.map (fun x => x.id)) ∧
    (∀ t : Store, delete_event s e = some t →
      ∃ pre x post, s.events = pre ++ x :: post ∧ x.id = e.id ∧
        (∀ y ∈ pre, y.id ≠ e.id) ∧ t.events = pre ++ post ∧
        t.file = some ((pre ++ post).map to_dict)) := by
  constructor
  · unfold delete_event
    rw [Option.map_eq_none']
    exact listRemove_none_iff s.events e
  · intro t ht
    unfold delete_event at ht
    cases hrec : listRemove s.events e with
    | none => rw [hrec] at ht; simp at ht
    | some l =>
      rw [hrec] at ht
      simp only [Option.map_some', Option.some.injEq] at ht
      obtain ⟨pre, x, post, h1, h2, h3, h4⟩ := listRemove_some_decomp s.events e l hrec
      subst h4
      refine ⟨pre, x, post, h1, h2, h3, ?_, ?_⟩
      · rw [← ht]
        rfl
      · rw [← ht]
        rfl

/-- C4 counterexample: the claim "removal succeeds for any event that is
field-equal to a stored one" is false: this event is field-equal to the
stored one but a distinct object, and `delete_event` raises (`none`). -/
theorem C4_counterexample :
    eventVal ⟨1, "A", ⟨2024, 5, 1, 10, 0, 0⟩, "x"⟩ =
      eventVal ⟨0, "A", ⟨2024, 5, 1, 10, 0, 0⟩, "x"⟩ ∧
    delete_event ⟨[⟨0, "A", ⟨2024, 5, 1, 10, 0, 0⟩, "x"⟩], none⟩
      ⟨1, "A", ⟨2024, 5, 1, 10, 0, 0⟩, "x"⟩ = none := by
  decide

/-- C4 witness: deleting an event whose identity is not in the store raises. -/
theorem C4_witness :
    delete_event ⟨[⟨0, "A", ⟨2024, 5, 1, 10, 0, 0⟩, "x"⟩], none⟩
      ⟨1, "B", ⟨2024, 5, 2, 0, 0, 0⟩, ""⟩ = none :=
  (C4_delete_event_identity _ _).1.mpr (by decide)

/-! ## C6 -/

theorem listRemove_append_self : ∀ (l : List Event) (e : Event),
    e.id ∉ l.map (fun x => x.id) → listRemove (l ++ [e]) e = some l
  | [], e, _ => by simp [listRemove]
  | x :: xs, e, h => by
    have hx : ¬x.id = e.id := by
      intro hc
      exact h (by simp [hc.symm])
    have htail : e.id ∉ xs.map (fun x => x.id) := by
      intro hc
      exact h (by simp [hc])
    show listRemove (x :: (xs ++ [e])) e = some (x :: xs)
    simp only [listRemove, if_neg hx, listRemove_append_self xs e htail]
    rfl

/-- C6 (amended): when the added event is a fresh object (its identity does
not already occur in the store) and the persisted file is in sync with the
collection, `add_event` followed by `delete_event` of the same object
restores exactly the prior store, persisted state included. -/
theorem C6_add_then_delete (s : Store) (e : Event)
    (hid : e.id ∉ s.events.map (fun x => x.id))
    (hsync : s.file = some (s.events.map to_dict)) :
    delete_event (add_event s e) e = some s := by
  obtain ⟨ev, fl⟩ := s
  simp only at hid hsync
  subst hsync
  show (listRemove (ev ++ [e]) e).map _ = _
  rw [listRemove_append_self ev e hid]
  rfl

/-- C6 counterexample: if the added object already occurs in the store,
add-then-remove removes the earlier occurrence and leaves the duplicate at
the end, so the store does not return to its prior state (even though the
prior persisted file was in sync). -/
theorem C6_counterexample :
    delete_event
        (add_event
          (save ⟨[⟨0, "A", ⟨2024, 5, 1, 10, 0, 0⟩, ""⟩,
            ⟨1, "B", ⟨2024, 5, 1, 11, 0, 0⟩, ""⟩], none⟩)
          ⟨0, "A", ⟨2024, 5, 1, 10, 0, 0⟩, ""⟩)
        ⟨0, "A", ⟨2024, 5, 1, 10, 0, 0⟩, ""⟩ ≠
      some (save ⟨[⟨0, "A", ⟨2024, 5, 1, 10, 0, 0⟩, ""⟩,
        ⟨1, "B", ⟨2024, 5, 1, 11, 0, 0⟩, ""⟩], none⟩) := by
  decide

/-- C6 witness: a fresh event added to a synced one-event store and then
removed restores that store exactly. -/
theorem C6_witness :
    delete_event
        (add_event (save ⟨[⟨0, "A", ⟨2024, 5, 1, 10, 0, 0⟩, ""⟩], none⟩)
          ⟨1, "B", ⟨2024, 5, 2, 9, 0, 0⟩, "d"⟩)
        ⟨1, "B", ⟨2024, 5, 2, 9, 0, 0⟩, "d"⟩ =
      some (save ⟨[⟨0, "A", ⟨2024, 5, 1, 10, 0, 0⟩, ""⟩], none⟩) :=
  C6_add_then_delete _ _ (by decide) (by decide)

end Enaplo

namespace Enaplo

/-! ## C3 -/

theorem splitCh_ne_nil (c : Char) : ∀ l : List Char, splitCh c l ≠ []
  | [] => by simp [splitCh]
  | x :: xs => by
    by_cases h : x = c
    · simp [splitCh, h]
    · simp only [splitCh, if_neg h]
      cases hs : splitCh c xs <;> simp

theorem splitCh_length (c : Char) : ∀ l : List Char, (splitCh c l).length = l.count c + 1
  | [] => by simp [splitCh]
  | x :: xs => by
    have hrec := splitCh_length c xs
    by_cases h : x = c
    · simp only [splitCh, if_pos h, List.length_cons, hrec, List.count_cons]
      simp [h]
    · cases hs : splitCh c xs with
      | nil => exact absurd hs (splitCh_ne_nil c xs)
      | cons p ps =>
        rw [hs] at hrec
        simp only [splitCh, if_neg h, hs, List.length_cons, List.count_cons] at *
        simp only [beq_iff_eq, if_neg h]
        omega

theorem parseClock_none_count (us : List Char) (h : us.count ':' ≠ 1) :
    parseClock us = none := by
  have hlen : (splitCh ':' us).length ≠ 2 := by
    rw [splitCh_length]
    omega
  unfold parseClock
  cases hs : splitCh ':' us with
  | nil => rfl
  | cons a t =>
    cases t with
    | nil => rfl
    | cons b t2 =>
      cases t2 with
      | nil =>
        exfalso
        apply hlen
        rw [hs]
        rfl
      | cons q t3 => rfl

theorem dialogTime_none_count (y mo d : Nat) (us : List Char) (h : us.count ':' ≠ 1) :
    dialogTime y mo d us = none := by
  unfold dialogTime
  rw [parseClock_none_count us h]
  rfl

/-- C3 (amended): every *nonempty* time string that the parsing path
rejects (a colon count other than one, a non-integer part such as in
"abc", or out-of-range values such as "25:99") makes the add dialog show
an error and abort, leaving the store and its persisted file unchanged;
the empty string, however, is not treated as invalid: it is defaulted to
00:00 (see C7). -/
theorem C3_invalid_time_aborts (s : Store) (freshId y mo d : Nat) (t : String)
    (ts : List Char) (desc : Option String) (ht : t ≠ "") (hne : ts ≠ [])
    (hbad : dialogTime y mo d ts = none) :
    addDialogRun s freshId y mo d (some t) (some ts) desc = (s, AddOutcome.errorAbort) ∧
    dialogTime y mo d ("abc".toList) = none ∧
    dialogTime y mo d ("25:99".toList) = none ∧
    (∀ us : List Char, us.count ':' ≠ 1 → dialogTime y mo d us = none) := by
  refine ⟨?_, rfl, rfl, fun us h => dialogTime_none_count y mo d us h⟩
  simp only [addDialogRun, addDialogOutcome, orDefaultTime]
  rw [if_neg ht, if_neg hne, hbad]

/-- C3 counterexample: the empty string contains no colon, so the claim
counts it as invalid, yet entering it does not abort with an error: the
time is defaulted and an event is added, changing the store. -/
theorem C3_counterexample :
    (([] : List Char).count ':' ≠ 1) ∧
    addDialogRun ⟨[], none⟩ 0 2024 5 1 (some "T") (some []) none ≠
      (⟨[], none⟩, AddOutcome.errorAbort) ∧
    (addDialogRun ⟨[], none⟩ 0 2024 5 1 (some "T") (some []) none).1 ≠ ⟨[], none⟩ := by
  decide

/-- C3 witness: the out-of-range time "25:99" aborts with an error and
leaves the store untouched. -/
theorem C3_witness :
    addDialogRun ⟨[], none⟩ 0 2024 5 1 (some "T") (some ("25:99".toList)) none =
      (⟨[], none⟩, AddOutcome.errorAbort) :=
  (C3_invalid_time_aborts ⟨[], none⟩ 0 2024 5 1 "T" ("25:99".toList) none
    (by decide) (by decide) (by decide)).1

/-! ## C7 -/

/-- C7: a cancelled or empty time prompt (after a non-empty title) does not
abort the add: the time falls back to "00:00" and an event at midnight of
the selected date is created, appended to the store and persisted. -/
theorem C7_empty_time_defaults (s : Store) (freshId y mo d : Nat) (t : String)
    (desc : Option String) (ht : t ≠ "") :
    addDialogRun s freshId y mo d (some t) none desc =
      (add_event s ⟨freshId, t, ⟨y, mo, d, 0, 0, 0⟩, desc.getD ""⟩,
        AddOutcome.added ⟨freshId, t, ⟨y, mo, d, 0, 0, 0⟩, desc.getD ""⟩) ∧
    addDialogRun s freshId y mo d (some t) (some []) desc =
      (add_event s ⟨freshId, t, ⟨y, mo, d, 0, 0, 0⟩, desc.getD ""⟩,
        AddOutcome.added ⟨freshId, t, ⟨y, mo, d, 0, 0, 0⟩, desc.getD ""⟩) := by
  refine ⟨?_, ?_⟩ <;>
  · simp only [addDialogRun, addDialogOutcome]
    rw [if_neg ht]
    rfl

/-- C7 witness: a concrete cancelled time prompt stores a midnight event. -/
theorem C7_witness :
    addDialogRun ⟨[], none⟩ 4 2024 5 1 (some "Meeting") none (some "notes") =
      (add_event ⟨[], none⟩ ⟨4, "Meeting", ⟨2024, 5, 1, 0, 0, 0⟩, "notes"⟩,
        AddOutcome.added ⟨4, "Meeting", ⟨2024, 5, 1, 0, 0, 0⟩, "notes"⟩) :=
  (C7_empty_time_defaults ⟨[], none⟩ 4 2024 5 1 "Meeting" (some "notes") (by decide)).1

/-! ## C8 -/

/-- C8: a cancelled (`None`) or empty title prompt silently aborts the add:
no error, no event, and the store and persisted file are unchanged. -/
theorem C8_empty_title_silent_abort (s : Store) (freshId y mo d : Nat)
    (timeStr : Option (List Char)) (desc : Option String) :
    addDialogRun s freshId y mo d none timeStr desc = (s, AddOutcome.silentAbort) ∧
    addDialogRun s freshId y mo d (some "") timeStr desc = (s, AddOutcome.silentAbort) :=
  ⟨rfl, rfl⟩

/-! ## C9 -/

/-- C9: triggering delete with no list row selected is silently ignored:
no confirmation prompt, no deletion, store and persisted file unchanged. -/
theorem C9_no_selection_ignored (s : Store) (y mo d : Nat) (confirm : Bool) :
    deleteSelectedRun s y mo d none confirm = (s, DeleteOutcome.ignored) := rfl

end Enaplo
